import Mathlib

/-!
Verification of the MWRecentChangesReport job (src/rc-report.py).

The development shallowly embeds the script's pure core:

* `EditRecord` models one element of the `recentchanges` JSON list, with the
  fields the script reads (`title`, `timestamp`, `user`, `comment`, `revid`,
  `old_revid`).  `rc.get('comment', '')` and `rc.get('old_revid', 0)` are
  modelled by making the field total with the Python default standing for an
  absent key.
* `parseTS` models `datetime.datetime.strptime(s, '%Y-%m-%dT%H:%M:%SZ')`,
  including CPython's lenient 1-or-2-digit matching for `%m %d %H %M %S`
  (4 digits exactly for `%Y`), the requirement that the whole string is
  consumed, and the range validation done by the `datetime` constructor.
* `sortDesc` models `changes.sort(key=lambda x: x['timestamp'], reverse=True)`:
  a stable descending sort by the raw timestamp string under Python's
  code-point-lexicographic string order (`tsLtB`).
* `fmtLoop` models the grouping loop of `format_changes` as a structural
  event stream (`RItem`), and `format_group` / `format_changes_lines` model
  the HTML rendering line by line (the Python function joins the very same
  lines with a newline).
* `mainEvents` models the observable control flow of `main` (config checks,
  network calls in program order, exit codes) on the happy network path.
-/

/-- One recent-changes entry as consumed by the script.  `comment` is the
value of `rc.get('comment', '')` (the empty string models an absent key) and
`old_revid` the value of `rc.get('old_revid', 0)` (0 models an absent key). -/
structure EditRecord where
  title : String
  timestamp : String
  user : String
  comment : String
  revid : Nat
  old_revid : Nat
deriving DecidableEq, Repr

/-- A parsed timestamp, the result of `datetime.datetime.strptime` on a
`%Y-%m-%dT%H:%M:%SZ` string (the tz marker carries no data). -/
structure DateTime where
  year : Nat
  month : Nat
  day : Nat
  hour : Nat
  minute : Nat
  second : Nat
deriving DecidableEq, Repr

/-- Decimal digit value of a character, `none` for non-digits. -/
def digitVal (c : Char) : Option Nat :=
  if c.isDigit then some (c.toNat - 48) else none

/-- CPython `_strptime` matches `%Y` with exactly four digits. -/
def pYear : List Char → Option (Nat × List Char)
  | c1 :: c2 :: c3 :: c4 :: rest =>
    match digitVal c1, digitVal c2, digitVal c3, digitVal c4 with
    | some a, some b, some c, some d => some (1000 * a + 100 * b + 10 * c + d, rest)
    | _, _, _, _ => none
  | _ => none

/-- CPython `_strptime` matches `%m %d %H %M %S` with a regex that accepts a
two-digit value within `[lo2, hi2]`, else falls back to a single digit that is
at least `lo1` (e.g. `%d` is `3[01]|[12]\d|0[1-9]|[1-9]`). -/
def pLenient2 (lo2 hi2 lo1 : Nat) : List Char → Option (Nat × List Char)
  | c1 :: c2 :: rest =>
    match digitVal c1, digitVal c2 with
    | some a, some b =>
      if lo2 ≤ 10 * a + b ∧ 10 * a + b ≤ hi2 then some (10 * a + b, rest)
      else if lo1 ≤ a then some (a, c2 :: rest)
      else none
    | some a, none => if lo1 ≤ a then some (a, c2 :: rest) else none
    | none, _ => none
  | [c1] =>
    match digitVal c1 with
    | some a => if lo1 ≤ a then some (a, []) else none
    | none => none
  | [] => none

/-- Match one literal character of the format string. -/
def pLit (ch : Char) : List Char → Option (List Char)
  | c :: rest => if c = ch then some rest else none
  | [] => none

/-- Leap year test of the proleptic Gregorian calendar (Python `calendar`). -/
def isLeap (y : Nat) : Bool :=
  y % 4 = 0 && (y % 100 ≠ 0 || y % 400 = 0)

/-- Length of a month, as enforced by the `datetime.datetime` constructor. -/
def daysInMonth (y m : Nat) : Nat :=
  if m = 2 then (if isLeap y then 29 else 28)
  else if m = 4 ∨ m = 6 ∨ m = 9 ∨ m = 11 then 30
  else 31

/-- Models `datetime.datetime.strptime(s, '%Y-%m-%dT%H:%M:%SZ')`: the regex built by
CPython for this format, anchored to consume the whole string, followed by the
validation performed by the `datetime` constructor (`MINYEAR = 1`, day within
the month; hour/minute/second bounds are already enforced by the regex). -/
def parseTS (s : String) : Option DateTime := do
  let (y, r1) ← pYear s.data
  let r2 ← pLit '-' r1
  let (mo, r3) ← pLenient2 1 12 1 r2
  let r4 ← pLit '-' r3
  let (d, r5) ← pLenient2 1 31 1 r4
  let r6 ← pLit 'T' r5
  let (h, r7) ← pLenient2 0 23 0 r6
  let r8 ← pLit ':' r7
  let (mi, r9) ← pLenient2 0 59 0 r8
  let r10 ← pLit ':' r9
  let (sec, r11) ← pLenient2 0 59 0 r10
  let r12 ← pLit 'Z' r11
  match r12 with
  | [] => if 1 ≤ y ∧ d ≤ daysInMonth y mo then some ⟨y, mo, d, h, mi, sec⟩ else none
  | _ :: _ => none

/-- Left-pad a number to two digits, as glibc `strftime` does for
`%m %d %H %M %S`. -/
def pad2 (n : Nat) : String :=
  if n < 10 then "0" ++ toString n else toString n

/-- Models `ts.strftime('%Y-%m-%d')`.  glibc prints `%Y` unpadded (years below 1000
keep their natural width); months and days are zero-padded. -/
def dateStr (dt : DateTime) : String :=
  toString dt.year ++ "-" ++ pad2 dt.month ++ "-" ++ pad2 dt.day

/-- Models `ts.strftime('%H:%M')`. -/
def hhmm (dt : DateTime) : String :=
  pad2 dt.hour ++ ":" ++ pad2 dt.minute

/-- Days since 0000-03-01 of the proleptic Gregorian date `(y, m, d)`,
for `y ≥ 1` (the range `datetime` admits); standard civil-calendar count. -/
def daysFromCivilN (y m d : Nat) : Nat :=
  let y' := if m ≤ 2 then y - 1 else y
  let era := y' / 400
  let yoe := y' % 400
  let mp := if 2 < m then m - 3 else m + 9
  let doy := (153 * mp + 2) / 5 + d - 1
  let doe := yoe * 365 + yoe / 4 - yoe / 100 + doy
  era * 146097 + doe

/-- Days since the Unix epoch (1970-01-01) of a proleptic Gregorian date;
1970-01-01 is day 719468 of the civil count. -/
def epochDayOfCivil (y m d : Nat) : Int :=
  (daysFromCivilN y m d : Int) - 719468

/-- Python `date.weekday()` (Monday = 0 … Sunday = 6) expressed on the civil
day count: 1970-01-01 (civil day 719468) was a Thursday. -/
def weekdayIdxN (days : Nat) : Nat :=
  (days + 2) % 7

/-- Models `ts.strftime('%A')` in the C locale. -/
def dayNameOf (idx : Nat) : String :=
  ["Monday", "Tuesday", "Wednesday", "Thursday", "Friday", "Saturday",
   "Sunday"].getD idx ""

/-- Weekday name of a parsed timestamp, as interpolated into the `<h2>`
headings. -/
def dowName (dt : DateTime) : String :=
  dayNameOf (weekdayIdxN (daysFromCivilN dt.year dt.month dt.day))

/-- The `%b` month abbreviation in the C locale. -/
def monthAbbrev (m : Nat) : String :=
  ["Jan", "Feb", "Mar", "Apr", "May", "Jun", "Jul", "Aug", "Sep", "Oct",
   "Nov", "Dec"].getD (m - 1) ""

/-- Models `d.strftime('%b %d')` for a civil date given as an integer triple. -/
def fmtMD (ymd : Int × Int × Int) : String :=
  monthAbbrev ymd.2.1.toNat ++ " " ++ pad2 ymd.2.2.toNat

example : parseTS "2024-01-02T10:00:00Z" = some ⟨2024, 1, 2, 10, 0, 0⟩ := by decide
example : parseTS "2024-1-2T9:3:4Z" = some ⟨2024, 1, 2, 9, 3, 4⟩ := by decide
example : parseTS "2024-02-30T10:00:00Z" = none := by decide
example : parseTS "2024-01-02T10:00:00" = none := by decide
example : dowName ⟨2024, 1, 2, 10, 0, 0⟩ = "Tuesday" := by decide

/-- Python string `<` on the raw timestamp strings: lexicographic comparison
of code points. -/
def charsLtB : List Char → List Char → Bool
  | [], [] => false
  | [], _ :: _ => true
  | _ :: _, [] => false
  | a :: as, b :: bs =>
    if a.toNat < b.toNat then true
    else if b.toNat < a.toNat then false
    else charsLtB as bs

/-- Comparison used by `changes.sort(key=lambda x: x['timestamp'], ...)`. -/
def tsLtB (a b : String) : Bool :=
  charsLtB a.data b.data

/-- One step of a stable descending insertion by timestamp: `r` (which comes
earlier in the original list than everything in the accumulator) is placed
before the first element whose key is not strictly greater — so ties keep
their original order, as Python's stable `list.sort(reverse=True)` does. -/
def insertDesc (r : EditRecord) : List EditRecord → List EditRecord
  | [] => [r]
  | x :: xs =>
    if tsLtB r.timestamp x.timestamp then x :: insertDesc r xs
    else r :: x :: xs

/-- Models `changes.sort(key=lambda x: x['timestamp'], reverse=True)`: the unique
stable descending reordering by the timestamp string (any stable sorting
algorithm produces this list; Python's timsort is stable). -/
def sortDesc (l : List EditRecord) : List EditRecord :=
  l.foldr insertDesc []

/-- Models `html.escape(s)` (with its default `quote=True`): the module applies the
five replacements sequentially with `&` first, which is equivalent to this
single character-wise expansion. -/
def escChar1 (c : Char) : List Char :=
  if c = '&' then "&amp;".data
  else if c = '<' then "&lt;".data
  else if c = '>' then "&gt;".data
  else if c = '"' then "&quot;".data
  else if c = Char.ofNat 39 then "&#x27;".data
  else [c]

def escChars (cs : List Char) : List Char :=
  cs.flatMap escChar1

def htmlEscape (s : String) : String :=
  String.mk (escChars s.data)

/-- UTF-8 encoding of one code point, as `urllib.parse.quote` encodes the
string before percent-encoding its bytes. -/
def utf8Bytes (c : Char) : List Nat :=
  let n := c.toNat
  if n < 128 then [n]
  else if n < 2048 then [192 + n / 64, 128 + n % 64]
  else if n < 65536 then [224 + n / 4096, 128 + n / 64 % 64, 128 + n % 64]
  else [240 + n / 262144, 128 + n / 4096 % 64, 128 + n / 64 % 64, 128 + n % 64]

/-- Uppercase hexadecimal digit, as in `urllib.parse.quote`'s `%XX`. -/
def hexDigitU (n : Nat) : Char :=
  if n < 10 then Char.ofNat (48 + n) else Char.ofNat (55 + n)

def pctByte (b : Nat) : List Char :=
  ['%', hexDigitU (b / 16), hexDigitU (b % 16)]

/-- The always-safe set of `urllib.parse.quote` (ASCII alphanumerics and `_.-~`)
plus its default `safe='/'`. -/
def quoteSafe (c : Char) : Bool :=
  c.isAlphanum || c = '_' || c = '.' || c = '-' || c = '~' || c = '/'

def quoteChar1 (c : Char) : List Char :=
  if quoteSafe c then [c] else (utf8Bytes c).flatMap pctByte

def quoteChars (cs : List Char) : List Char :=
  cs.flatMap quoteChar1

/-- Models `urllib.parse.quote(s)` with default arguments (`safe='/'`, UTF-8). -/
def pyQuote (s : String) : String :=
  String.mk (quoteChars s.data)

/-- Models `page_title.replace(' ', '_')`. -/
def underscoreSpaces (s : String) : String :=
  String.mk (s.data.map fun c => if c = ' ' then '_' else c)

/-- A record paired with its parsed timestamp.  The Python loop calls
`strptime` on each record as it reaches it (and `format_group` parses again);
parsing is deterministic, so the pairs carry the one shared result. -/
abbrev RCPair := EditRecord × DateTime

/-- The diff URL `f"{base_url}/w/index.php?diff={rc['revid']}&oldid={rc.get('old_revid', 0)}"`. -/
def diffLink (base_url : String) (r : EditRecord) : String :=
  base_url ++ "/w/index.php?diff=" ++ toString r.revid ++ "&oldid=" ++
    toString r.old_revid

/-- One `<li>` line of a group's edit list. -/
def editEntry (base_url : String) (p : RCPair) : String :=
  "<li>[<a href='" ++ diffLink base_url p.1 ++ "'>diff</a>] [" ++ hhmm p.2 ++
    "] ('" ++ htmlEscape p.1.comment ++ "') </li>"

/-- The range `f"[{last_ts.strftime('%H:%M')} - {first_ts.strftime('%H:%M')}]"`:
the group's last member (the earliest, under the descending sort) is printed
first, its first member (the latest) second. -/
def timeRange (first last : RCPair) : String :=
  "[" ++ hhmm last.2 ++ " - " ++ hhmm first.2 ++ "]"

/-- The `<p><strong>...` header line of one group. -/
def groupHeader (base_url : String) (first last : RCPair) : String :=
  "<p><strong>" ++ timeRange first last ++ " <a href='" ++ base_url ++
    "/wiki/" ++ pyQuote (underscoreSpaces first.1.title) ++ "'><strong>" ++
    htmlEscape first.1.title ++ "</strong></a> [<a href='" ++ base_url ++
    "/wiki/User:" ++ pyQuote first.1.user ++ "'>" ++ htmlEscape first.1.user ++
    "</a>]</strong></p>"

/-- Models `format_group(group, base_url)`: the list of HTML lines for one group.
The Python code indexes `group[0]` and `group[-1]`; all call sites flush only
non-empty groups, and the empty case is mapped to no lines. -/
def format_group (group : List RCPair) (base_url : String) : List String :=
  match group with
  | [] => []
  | first :: rest =>
    groupHeader base_url first (rest.getLastD first) :: "<ul>" ::
      (group.map (editEntry base_url) ++ ["</ul>"])

/-- A structural item of the formatter's output stream: a `<h2>` date heading
or a flushed group.  `format_changes` emits exactly these, in order. -/
inductive RItem where
  | heading (date : String) (dow : String)
  | group (g : List RCPair)
deriving DecidableEq, Repr

/-- Models `if group:` followed by `output_lines.extend(format_group(...))`. -/
def flushGroup : List RCPair → List RItem
  | [] => []
  | p :: ps => [RItem.group (p :: ps)]

/-- The grouping loop of `format_changes`, carrying `current_date`,
`last_user`, `last_page` and the open `group`.  After a date boundary the
code resets `last_user`/`last_page` to `None` and empties `group`, so the
member test (`user == last_user and page_title == last_page`) necessarily
fails and flushing the just-emptied group emits nothing; that branch is
written here with the new one-element group directly. -/
def fmtLoop (cur lu lp : Option String) (grp : List RCPair) :
    List RCPair → List RItem
  | [] => flushGroup grp
  | p :: rest =>
    let ds := dateStr p.2
    if cur = some ds then
      if lu = some p.1.user ∧ lp = some p.1.title then
        fmtLoop cur lu lp (grp ++ [p]) rest
      else
        flushGroup grp ++
          fmtLoop cur (some p.1.user) (some p.1.title) [p] rest
    else
      flushGroup grp ++ RItem.heading ds (dowName p.2) ::
        fmtLoop (some ds) (some p.1.user) (some p.1.title) [p] rest

/-- The items emitted by the loop from its initial state. -/
def fmtItems (pairs : List RCPair) : List RItem :=
  fmtLoop none none none [] pairs

/-- Render one item to output lines. -/
def renderItem (base_url : String) : RItem → List String
  | RItem.heading d w => ["<h2>" ++ d ++ " (" ++ w ++ ")</h2>"]
  | RItem.group g => format_group g base_url

/-- Runs `strptime` on each record of a list in order, pairing it with its parsed
timestamp; any failure raises in Python, modelled as `none`. -/
def annotateAll : List EditRecord → Option (List RCPair)
  | [] => some []
  | r :: rs =>
    match parseTS r.timestamp, annotateAll rs with
    | some dt, some ps => some ((r, dt) :: ps)
    | _, _ => none

/-- The two fixed lines `format_changes` emits before the loop. -/
def headerLines (start_date end_date : Int × Int × Int) (title : String) :
    List String :=
  ["<h1>Weekly " ++ title ++ " report: " ++ fmtMD start_date ++ " - " ++
     fmtMD end_date ++ "</h1>",
   "<p>Here are the recent changes on " ++ title ++ " for the past week:</p>"]

/-- The `output_lines` list of `format_changes(changes, base_url, start_date,
end_date, title)`.  The date parameters are `datetime`s in the source but only
their `%b %d` rendering is used, so they are passed as civil-date triples.
Parsing is hoisted out of the loop by `annotateAll`; a malformed timestamp
raises `ValueError` in Python, modelled as `none`. -/
def format_changes_lines (changes : List EditRecord) (base_url : String)
    (start_date end_date : Int × Int × Int) (title : String) :
    Option (List String) :=
  (annotateAll (sortDesc changes)).map fun pairs =>
    headerLines start_date end_date title ++
      (fmtItems pairs).flatMap (renderItem base_url)

/-- Models `format_changes` proper: `"\n".join(output_lines)`. -/
def format_changes (changes : List EditRecord) (base_url : String)
    (start_date end_date : Int × Int × Int) (title : String) : Option String :=
  (format_changes_lines changes base_url start_date end_date title).map
    (String.intercalate "\n")

/-- The state of the caller's `changes` list object after `format_changes`
returns: `changes.sort(...)` on line 112 reorders it in place. -/
def format_changes_finalList (changes : List EditRecord) : List EditRecord :=
  sortDesc changes

/-- Python `date.weekday()` on a day count relative to the Unix epoch
(1970-01-01 was a Thursday, index 3; Monday = 0 … Sunday = 6). -/
def pyWeekday (d : Int) : Int :=
  (d + 3) % 7

/-- Models `last_saturday = today - datetime.timedelta(days=today.weekday() + 2)`,
with dates as epoch day numbers. -/
def lastSaturdayE (today : Int) : Int :=
  today - (pyWeekday today + 2)

/-- Models `last_sunday = last_saturday - datetime.timedelta(days=6)`. -/
def lastSundayE (today : Int) : Int :=
  lastSaturdayE today - 6

/-- Civil (proleptic Gregorian) date of an epoch day number; inverse of
`epochDayOfCivil`, used to print the window bounds with `%b %d`. -/
def civilFromDays (z : Int) : Int × Int × Int :=
  let z' := z + 719468
  let era := z'.fdiv 146097
  let doe := z' - era * 146097
  let yoe := (doe - doe.fdiv 1460 + doe.fdiv 36524 - doe.fdiv 146096).fdiv 365
  let y := yoe + era * 400
  let doy := doe - (365 * yoe + yoe.fdiv 4 - yoe.fdiv 100)
  let mp := (5 * doy + 2).fdiv 153
  let d := doy - (153 * mp + 2).fdiv 5 + 1
  let m := mp + (if mp < 10 then 3 else -9)
  (if m ≤ 2 then y + 1 else y, m, d)

example : civilFromDays 19729 = (2024, 1, 7) := by decide
example : epochDayOfCivil 2024 1 7 = 19729 := by decide
example : pyWeekday 19729 = 6 := by decide

/-- The environment variables `main` and `send_email` read via `os.getenv`
(`none` models an unset variable). -/
structure Env where
  mwUsername : Option String
  mwPassword : Option String
  recipientEmail : Option String
  baseDomain : Option String
  mailgunApiKey : Option String
  mailgunDomain : Option String
  senderEmail : Option String
deriving DecidableEq, Repr

/-- Python truthiness of an `os.getenv` result: `not x` is true exactly for
`None` and the empty string. -/
def truthy : Option String → Bool
  | none => false
  | some s => !(s == "")

/-- How an `Option String` renders inside an f-string: `None` for an unset
variable (`f"https://{None}/w/api.php"` is `"https://None/w/api.php"`). -/
def pyStr : Option String → String
  | none => "None"
  | some s => s

/-- Observable steps of a run: process exit, HTTP requests (in program
order), and the invocation of the formatter. -/
inductive Ev where
  | exitCode (n : Nat)
  | httpGet (url : String)
  | httpPost (url : String)
  | formatReport
deriving DecidableEq, Repr

/-- The URL `f"https://{BASE_DOMAIN}/w/api.php"`. -/
def apiUrl (env : Env) : String :=
  "https://" ++ pyStr env.baseDomain ++ "/w/api.php"

/-- The Mailgun configuration check at the top of `send_email`. -/
def mailgunConfigured (env : Env) : Bool :=
  truthy env.mailgunApiKey && truthy env.mailgunDomain && truthy env.senderEmail

/-- Events of `send_email`: missing Mailgun configuration exits with code 1
before the POST; otherwise the POST to the Mailgun endpoint is issued. -/
def send_emailEvents (env : Env) : List Ev :=
  if mailgunConfigured env then
    [Ev.httpPost ("https://api.mailgun.net/v3/" ++ pyStr env.mailgunDomain ++
      "/messages")]
  else [Ev.exitCode 1]

/-- Observable control flow of `main` when every network call that is reached
succeeds: the two startup configuration checks, then the login-token GET, the
login POST and the recent-changes GET against `apiUrl` (in that order —
`BASE_DOMAIN` itself is never validated), then either a successful exit on an
empty change set or formatting followed by `send_email`; `sendOk` abstracts
`response.status_code == 200`.  `changes` is the list the fetch returned. -/
def mainEvents (env : Env) (changes : List EditRecord) (sendOk : Bool) :
    List Ev :=
  if !truthy env.mwUsername || !truthy env.mwPassword then [Ev.exitCode 1]
  else if !truthy env.recipientEmail then [Ev.exitCode 1]
  else
    [Ev.httpGet (apiUrl env), Ev.httpPost (apiUrl env),
     Ev.httpGet (apiUrl env)] ++
      (if changes.isEmpty then [Ev.exitCode 0]
       else Ev.formatReport :: send_emailEvents env ++
         (if mailgunConfigured env then
            [Ev.exitCode (if sendOk then 0 else 1)]
          else []))

/-- Models `title = BASE_DOMAIN.split('.')[0]`. -/
def titleOfDomain (domain : String) : String :=
  (domain.splitOn ".").headD ""

/-- The `format_changes` call of `main` (step 5): note the argument order —
`main`'s `end_date` (the Saturday bound) is passed as the formatter's
`start_date` parameter and vice versa. -/
def mainFormatLines (today : Int) (changes : List EditRecord)
    (domain : String) : Option (List String) :=
  format_changes_lines changes ("https://" ++ domain)
    (civilFromDays (lastSaturdayE today)) (civilFromDays (lastSundayE today))
    (titleOfDomain domain)

/-- The email subject built in `main` (step 6), with `main`'s own
`start_date` (the Sunday) first. -/
def mainSubject (today : Int) (domain : String) : String :=
  "Weekly " ++ domain ++ " report: " ++
    fmtMD (civilFromDays (lastSundayE today)) ++ " - " ++
    fmtMD (civilFromDays (lastSaturdayE today))

/-- A character of the output together with its provenance: `true` marks a
character that is the raw, unmodified character of a user-supplied field
(page title, username, or comment). -/
abbrev TChar := Char × Bool

/-- A taint-annotated string. -/
abbrev TStr := List TChar

/-- Text not originating from user-supplied fields (markup literals, the
base URL, timestamps, revision ids, the report title). -/
def liftT (s : String) : TStr :=
  s.data.map fun c => (c, false)

/-- The raw characters of a user-supplied field. -/
def taintT (s : String) : TStr :=
  s.data.map fun c => (c, true)

/-- Forget provenance. -/
def eraseT (l : TStr) : String :=
  String.mk (l.map Prod.fst)

/-- Taint-tracking `html.escape`: a character that gets replaced by an entity
appears in the output only as its escaped form, which is no longer the raw
character, hence untainted; characters left alone keep their provenance. -/
def tEscChar1 (ct : TChar) : TStr :=
  if ct.1 = '&' then liftT "&amp;"
  else if ct.1 = '<' then liftT "&lt;"
  else if ct.1 = '>' then liftT "&gt;"
  else if ct.1 = '"' then liftT "&quot;"
  else if ct.1 = Char.ofNat 39 then liftT "&#x27;"
  else [ct]

def tEsc (l : TStr) : TStr :=
  l.flatMap tEscChar1

/-- Taint-tracking `urllib.parse.quote`: safe characters pass through with
their provenance, everything else is emitted as percent-escapes. -/
def tQuoteChar1 (ct : TChar) : TStr :=
  if quoteSafe ct.1 then [ct]
  else ((utf8Bytes ct.1).flatMap pctByte).map fun c => (c, false)

def tQuote (l : TStr) : TStr :=
  l.flatMap tQuoteChar1

/-- Taint-tracking `editEntry`; only the comment is user-supplied text. -/
def tEditEntry (base_url : String) (p : RCPair) : TStr :=
  liftT ("<li>[<a href='" ++ diffLink base_url p.1 ++ "'>diff</a>] [" ++
      hhmm p.2 ++ "] ('") ++
    tEsc (taintT p.1.comment) ++ liftT "') </li>"

/-- Taint-tracking `groupHeader`; the page title and username enter the line
once percent-encoded (inside the hrefs) and once HTML-escaped (as link
text). -/
def tGroupHeader (base_url : String) (first last : RCPair) : TStr :=
  liftT ("<p><strong>" ++ timeRange first last ++ " <a href='" ++ base_url ++
      "/wiki/") ++
    tQuote (taintT (underscoreSpaces first.1.title)) ++ liftT "'><strong>" ++
    tEsc (taintT first.1.title) ++
    liftT ("</strong></a> [<a href='" ++ base_url ++ "/wiki/User:") ++
    tQuote (taintT first.1.user) ++ liftT "'>" ++
    tEsc (taintT first.1.user) ++ liftT "</a>]</strong></p>"

/-- Taint-tracking `format_group`. -/
def tFormat_group (group : List RCPair) (base_url : String) : List TStr :=
  match group with
  | [] => []
  | first :: rest =>
    tGroupHeader base_url first (rest.getLastD first) :: liftT "<ul>" ::
      (group.map (tEditEntry base_url) ++ [liftT "</ul>"])

/-- Taint-tracking `renderItem`; date headings carry no user-supplied
fields. -/
def tRenderItem (base_url : String) : RItem → List TStr
  | RItem.heading d w => [liftT ("<h2>" ++ d ++ " (" ++ w ++ ")</h2>")]
  | RItem.group g => tFormat_group g base_url

/-- Taint-tracking `format_changes_lines` on pre-parsed records; the report
title and window dates of the two header lines come from configuration, not
from user-supplied fields. -/
def tLines (pairs : List RCPair) (base_url : String)
    (start_date end_date : Int × Int × Int) (title : String) : List TStr :=
  (headerLines start_date end_date title).map liftT ++
    (fmtItems pairs).flatMap (tRenderItem base_url)

/-- No tainted character of the string is a raw `<`, `>`, `&` or `"`:
user-supplied text shows up in this output only in escaped form. -/
def noTaintedDanger (l : TStr) : Prop :=
  ∀ ct ∈ l, ct.2 = true → ct.1 ≠ '<' ∧ ct.1 ≠ '>' ∧ ct.1 ≠ '&' ∧ ct.1 ≠ '"'

instance (l : TStr) : Decidable (noTaintedDanger l) := by
  unfold noTaintedDanger
  infer_instance

/-- The record/timestamp pairs contained in a stream of items, in emission
order (headings contribute nothing). -/
def pairsOfItems (items : List RItem) : List RCPair :=
  items.flatMap fun
    | RItem.heading _ _ => []
    | RItem.group g => g

/-- The `EditRecord`s contained in a stream of items, in emission order. -/
def recordsOfItems (items : List RItem) : List EditRecord :=
  (pairsOfItems items).map Prod.fst

/-- A well-formed group: non-empty, and every member agrees with the first
on the user, the page title, and the rendered calendar date. -/
def GoodGroup : List RCPair → Prop
  | [] => False
  | p :: ps =>
    ∀ q ∈ ps, q.1.user = p.1.user ∧ q.1.title = p.1.title ∧
      dateStr q.2 = dateStr p.2

instance (g : List RCPair) : Decidable (GoodGroup g) := by
  unfold GoodGroup
  cases g <;> infer_instance

/-- Sortedness in the formatter's order: descending by timestamp string,
i.e. no element is strictly below a later one. -/
def DescByTs (l : List EditRecord) : Prop :=
  l.Pairwise fun a b => tsLtB a.timestamp b.timestamp = false

/-- First record of the three-record scenario of the specification:
user A edits Page1 at 2024-01-02T10:00Z. -/
def scenA1 : EditRecord :=
  ⟨"Page1", "2024-01-02T10:00:00Z", "A", "", 101, 100⟩

/-- Second scenario record: user A edits Page1 at 2024-01-02T09:30Z. -/
def scenA2 : EditRecord :=
  ⟨"Page1", "2024-01-02T09:30:00Z", "A", "", 100, 99⟩

/-- Third scenario record: user B edits Page2 at 2024-01-02T09:00Z. -/
def scenB : EditRecord :=
  ⟨"Page2", "2024-01-02T09:00:00Z", "B", "", 98, 0⟩

/-- The scenario list, already in descending timestamp order. -/
def scenChanges : List EditRecord :=
  [scenA1, scenA2, scenB]

/-- The scenario records paired with their parsed timestamps. -/
def scenPairs : List RCPair :=
  [(scenA1, ⟨2024, 1, 2, 10, 0, 0⟩), (scenA2, ⟨2024, 1, 2, 9, 30, 0⟩),
   (scenB, ⟨2024, 1, 2, 9, 0, 0⟩)]

/-- A record by user A on page P late in the evening of 2024-01-01. -/
def bPair1 : RCPair :=
  (⟨"P", "2024-01-02T01:00:00Z", "A", "", 7, 6⟩, ⟨2024, 1, 2, 1, 0, 0⟩)

/-- A record by the same user on the same page on the next calendar date. -/
def bPair2 : RCPair :=
  (⟨"P", "2024-01-01T23:00:00Z", "A", "", 6, 5⟩, ⟨2024, 1, 1, 23, 0, 0⟩)

/-- Two records by one user on one page on consecutive dates: the date
boundary must split them into two groups even though the key matches. -/
def boundaryChanges : List RCPair :=
  [bPair1, bPair2]

/-- An environment with every variable set except `BASE_DOMAIN`. -/
def envNoDomain : Env :=
  ⟨some "user", some "pass", some "rcpt@example.org", none, some "key",
   some "mg.example.org", some "sender@example.org"⟩

/-- A fully configured environment. -/
def envFull : Env :=
  ⟨some "user", some "pass", some "rcpt@example.org", some "wiki.example.org",
   some "key", some "mg.example.org", some "sender@example.org"⟩

/-- An environment missing the wiki password. -/
def envNoPassword : Env :=
  ⟨some "user", none, some "rcpt@example.org", some "wiki.example.org",
   some "key", some "mg.example.org", some "sender@example.org"⟩

/-- A fully configured environment except for the Mailgun API key. -/
def envNoMailgunKey : Env :=
  ⟨some "user", some "pass", some "rcpt@example.org", some "wiki.example.org",
   none, some "mg.example.org", some "sender@example.org"⟩

/-- A record whose title, user and comment all contain literal `<`, `>`, `&`
and `"` characters. -/
def riskyRecord : EditRecord :=
  ⟨"Pa<ge>&\"1 x", "2024-01-02T10:00:00Z", "us<er>&\"s", "co<mment>&\"q", 5, 4⟩

/-- A one-record change set of dangerous user-supplied text. -/
def riskyChanges : List EditRecord :=
  [riskyRecord]

/-- The risky record paired with its parsed timestamp. -/
def riskyPairs : List RCPair :=
  [(riskyRecord, ⟨2024, 1, 2, 10, 0, 0⟩)]

theorem charsLtB_asymm :
    ∀ as bs : List Char, charsLtB as bs = true → charsLtB bs as = false := by
  intro as
  induction as with
  | nil =>
    intro bs h
    cases bs with
    | nil => simp [charsLtB] at h
    | cons b bs => simp [charsLtB]
  | cons a as ih =>
    intro bs h
    cases bs with
    | nil => simp [charsLtB] at h
    | cons b bs =>
      simp only [charsLtB] at h ⊢
      rcases Nat.lt_trichotomy a.toNat b.toNat with hlt | heq | hgt
      · simp [hlt, Nat.lt_asymm hlt]
      · simp only [heq, Nat.lt_irrefl, if_false] at h ⊢
        exact ih bs h
      · simp [hgt, Nat.lt_asymm hgt] at h

theorem charsLtB_negtrans :
    ∀ as bs cs : List Char, charsLtB as bs = false → charsLtB bs cs = false →
      charsLtB as cs = false := by
  intro as
  induction as with
  | nil =>
    intro bs cs h1 h2
    cases bs with
    | nil => exact h2
    | cons b bs => simp [charsLtB] at h1
  | cons a as ih =>
    intro bs cs h1 h2
    cases bs with
    | nil =>
      cases cs with
      | nil => simp [charsLtB]
      | cons c cs => simp [charsLtB] at h2
    | cons b bs =>
      cases cs with
      | nil => simp [charsLtB]
      | cons c cs =>
        simp only [charsLtB] at h1 h2 ⊢
        by_cases hab : a.toNat < b.toNat
        · simp [hab] at h1
        · by_cases hbc : b.toNat < c.toNat
          · simp [hbc] at h2
          · by_cases hac : a.toNat < c.toNat
            · omega
            · simp only [hac, if_false]
              by_cases hca : c.toNat < a.toNat
              · simp [hca]
              · have hba : ¬ b.toNat < a.toNat := by omega
                have hcb : ¬ c.toNat < b.toNat := by omega
                rw [if_neg hab, if_neg hba] at h1
                rw [if_neg hbc, if_neg hcb] at h2
                rw [if_neg hca]
                exact ih bs cs h1 h2

theorem tsLtB_asymm {a b : String} (h : tsLtB a b = true) : tsLtB b a = false :=
  charsLtB_asymm a.data b.data h

theorem tsLtB_negtrans {a b c : String} (h1 : tsLtB a b = false)
    (h2 : tsLtB b c = false) : tsLtB a c = false :=
  charsLtB_negtrans a.data b.data c.data h1 h2

theorem mem_insertDesc {r x : EditRecord} :
    ∀ {l : List EditRecord}, x ∈ insertDesc r l ↔ x = r ∨ x ∈ l := by
  intro l
  induction l with
  | nil => simp [insertDesc]
  | cons y ys ih =>
    simp only [insertDesc]
    split
    · simp only [List.mem_cons, ih]
      tauto
    · simp only [List.mem_cons]

theorem insertDesc_perm (r : EditRecord) :
    ∀ l : List EditRecord, (insertDesc r l).Perm (r :: l) := by
  intro l
  induction l with
  | nil => simp [insertDesc]
  | cons y ys ih =>
    simp only [insertDesc]
    split
    · exact (ih.cons y).trans (List.Perm.swap r y ys)
    · exact List.Perm.refl _

theorem sortDesc_perm (l : List EditRecord) : (sortDesc l).Perm l := by
  induction l with
  | nil => simp [sortDesc]
  | cons a l ih =>
    have : sortDesc (a :: l) = insertDesc a (sortDesc l) := rfl
    rw [this]
    exact (insertDesc_perm a (sortDesc l)).trans (ih.cons a)

theorem pairwise_insertDesc {r : EditRecord} :
    ∀ {l : List EditRecord}, DescByTs l → DescByTs (insertDesc r l) := by
  intro l
  induction l with
  | nil => intro _; simp [insertDesc, DescByTs]
  | cons y ys ih =>
    intro h
    rcases List.pairwise_cons.mp h with ⟨hy, hys⟩
    simp only [insertDesc]
    split
    · refine List.pairwise_cons.mpr ⟨?_, ih hys⟩
      intro z hz
      rcases mem_insertDesc.mp hz with rfl | hz'
      · exact tsLtB_asymm (by assumption)
      · exact hy z hz'
    · refine List.pairwise_cons.mpr ⟨?_, h⟩
      intro z hz
      rcases List.mem_cons.mp hz with rfl | hz'
      · simpa using (by assumption : ¬ tsLtB r.timestamp z.timestamp = true)
      · exact tsLtB_negtrans (by simpa using
          (by assumption : ¬ tsLtB r.timestamp y.timestamp = true)) (hy z hz')

theorem sortDesc_sorted (l : List EditRecord) : DescByTs (sortDesc l) := by
  induction l with
  | nil => simp [sortDesc, DescByTs]
  | cons a l ih => exact pairwise_insertDesc ih

theorem insertDesc_of_rel {a : EditRecord} :
    ∀ {l : List EditRecord}, DescByTs (a :: l) → insertDesc a l = a :: l := by
  intro l h
  cases l with
  | nil => rfl
  | cons y ys =>
    have hy : tsLtB a.timestamp y.timestamp = false :=
      (List.pairwise_cons.mp h).1 y (List.mem_cons_self y ys)
    simp [insertDesc, hy]

theorem sortDesc_eq_self : ∀ {l : List EditRecord}, DescByTs l → sortDesc l = l := by
  intro l
  induction l with
  | nil => intro _; rfl
  | cons a l ih =>
    intro h
    have : sortDesc (a :: l) = insertDesc a (sortDesc l) := rfl
    rw [this, ih (List.pairwise_cons.mp h).2]
    exact insertDesc_of_rel h

theorem sortDesc_idem (l : List EditRecord) : sortDesc (sortDesc l) = sortDesc l :=
  sortDesc_eq_self (sortDesc_sorted l)

theorem annotateAll_map_fst :
    ∀ {xs : List EditRecord} {ps : List RCPair}, annotateAll xs = some ps →
      ps.map Prod.fst = xs := by
  intro xs
  induction xs with
  | nil =>
    intro ps h
    simp only [annotateAll, Option.some.injEq] at h
    subst h
    rfl
  | cons r rs ih =>
    intro ps h
    simp only [annotateAll] at h
    cases hp : parseTS r.timestamp with
    | none => rw [hp] at h; simp at h
    | some dt =>
      rw [hp] at h
      cases hq : annotateAll rs with
      | none => rw [hq] at h; simp at h
      | some qs =>
        rw [hq] at h
        simp only [Option.some.injEq] at h
        subst h
        simp [ih hq]

theorem pairsOfItems_append (a b : List RItem) :
    pairsOfItems (a ++ b) = pairsOfItems a ++ pairsOfItems b := by
  simp [pairsOfItems]

theorem pairsOfItems_flush (g : List RCPair) : pairsOfItems (flushGroup g) = g := by
  cases g <;> simp [flushGroup, pairsOfItems]

theorem pairsOfItems_cons_heading (d w : String) (rest : List RItem) :
    pairsOfItems (RItem.heading d w :: rest) = pairsOfItems rest := by
  simp [pairsOfItems]

theorem fmtLoop_pairs :
    ∀ (rest : List RCPair) (cur lu lp : Option String) (grp : List RCPair),
      pairsOfItems (fmtLoop cur lu lp grp rest) = grp ++ rest := by
  intro rest
  induction rest with
  | nil =>
    intro cur lu lp grp
    simp [fmtLoop, pairsOfItems_flush]
  | cons p rest ih =>
    intro cur lu lp grp
    simp only [fmtLoop]
    by_cases h1 : cur = some (dateStr p.2)
    · rw [if_pos h1]
      by_cases h2 : lu = some p.1.user ∧ lp = some p.1.title
      · rw [if_pos h2, ih]
        simp
      · rw [if_neg h2, pairsOfItems_append, pairsOfItems_flush, ih]
        simp
    · rw [if_neg h1, pairsOfItems_append, pairsOfItems_flush,
        pairsOfItems_cons_heading, ih]
      simp

theorem goodGroup_of_inv {cur lu lp : Option String} {grp : List RCPair}
    (hne : grp ≠ [])
    (hinv : ∀ q ∈ grp, lu = some q.1.user ∧ lp = some q.1.title ∧
      cur = some (dateStr q.2)) : GoodGroup grp := by
  cases grp with
  | nil => exact absurd rfl hne
  | cons p ps =>
    intro q hq
    have h1 := hinv q (List.mem_cons_of_mem p hq)
    have h0 := hinv p (List.mem_cons_self p ps)
    refine ⟨?_, ?_, ?_⟩
    · exact Option.some.inj (h1.1.symm.trans h0.1)
    · exact Option.some.inj (h1.2.1.symm.trans h0.2.1)
    · exact Option.some.inj (h1.2.2.symm.trans h0.2.2)

theorem goodGroup_of_mem_flush {cur lu lp : Option String} {grp : List RCPair}
    {g : List RCPair}
    (hinv : ∀ q ∈ grp, lu = some q.1.user ∧ lp = some q.1.title ∧
      cur = some (dateStr q.2))
    (hg : RItem.group g ∈ flushGroup grp) : GoodGroup g := by
  cases grp with
  | nil => simp [flushGroup] at hg
  | cons q qs =>
    simp only [flushGroup, List.mem_singleton, RItem.group.injEq] at hg
    subst hg
    exact goodGroup_of_inv (by simp) hinv

theorem fmtLoop_groups_good :
    ∀ (rest : List RCPair) (cur lu lp : Option String) (grp : List RCPair),
      (∀ q ∈ grp, lu = some q.1.user ∧ lp = some q.1.title ∧
        cur = some (dateStr q.2)) →
      ∀ g, RItem.group g ∈ fmtLoop cur lu lp grp rest → GoodGroup g := by
  intro rest
  induction rest with
  | nil =>
    intro cur lu lp grp hinv g hg
    simp only [fmtLoop] at hg
    exact goodGroup_of_mem_flush hinv hg
  | cons p rest ih =>
    intro cur lu lp grp hinv g hg
    simp only [fmtLoop] at hg
    by_cases h1 : cur = some (dateStr p.2)
    · rw [if_pos h1] at hg
      by_cases h2 : lu = some p.1.user ∧ lp = some p.1.title
      · rw [if_pos h2] at hg
        refine ih _ _ _ _ ?_ g hg
        intro q hq
        rcases List.mem_append.mp hq with hq' | hq'
        · exact hinv q hq'
        · simp only [List.mem_singleton] at hq'
          subst hq'
          exact ⟨h2.1, h2.2, h1⟩
      · rw [if_neg h2] at hg
        rcases List.mem_append.mp hg with hg' | hg'
        · exact goodGroup_of_mem_flush hinv hg'
        · refine ih _ _ _ _ ?_ g hg'
          intro q hq
          simp only [List.mem_singleton] at hq
          subst hq
          exact ⟨rfl, rfl, h1⟩
    · rw [if_neg h1] at hg
      rcases List.mem_append.mp hg with hg' | hg'
      · exact goodGroup_of_mem_flush hinv hg'
      · rcases List.mem_cons.mp hg' with h | h
        · cases h
        · refine ih _ _ _ _ ?_ g h
          intro q hq
          simp only [List.mem_singleton] at hq
          subst hq
          exact ⟨rfl, rfl, rfl⟩

/-- C1: concatenating the records of all groups emitted by the formatter's
loop, across all date sections, in order, yields exactly the
descending-timestamp-sorted input; no record is added, dropped, duplicated
or reordered (the sorted list itself being a permutation of the fetched
input). -/
theorem c1_grouping_reproduces_sorted_input
    (changes : List EditRecord) (pairs : List RCPair)
    (h : annotateAll (sortDesc changes) = some pairs) :
    recordsOfItems (fmtItems pairs) = sortDesc changes ∧
    (sortDesc changes).Perm changes := by
  refine ⟨?_, sortDesc_perm changes⟩
  unfold recordsOfItems fmtItems
  rw [fmtLoop_pairs]
  simpa using annotateAll_map_fst h

/-- Witness for C1 at the specification's three-record scenario. -/
theorem c1_grouping_reproduces_sorted_input_witness :
    annotateAll (sortDesc scenChanges) = some scenPairs ∧
    (recordsOfItems (fmtItems scenPairs) = sortDesc scenChanges ∧
      (sortDesc scenChanges).Perm scenChanges) :=
  ⟨by decide, c1_grouping_reproduces_sorted_input scenChanges scenPairs (by decide)⟩

/-- C3: every group the formatter emits is non-empty and homogeneous — all
its records carry one (user, title) pair and one rendered UTC calendar date —
and a record whose key matches the previous group does not join it once a
date-section boundary intervened: on the two-record one-key two-date input
the loop emits two separate singleton groups under two separate headings. -/
theorem c3_groups_wellformed :
    (∀ (pairs : List RCPair) (g : List RCPair),
      RItem.group g ∈ fmtItems pairs → GoodGroup g) ∧
    fmtItems boundaryChanges =
      [RItem.heading "2024-01-02" "Tuesday", RItem.group [bPair1],
       RItem.heading "2024-01-01" "Monday", RItem.group [bPair2]] := by
  constructor
  · intro pairs g hg
    exact fmtLoop_groups_good pairs none none none [] (by simp) g hg
  · decide

/-- Witness for C3: the two-record group of the three-record scenario is
produced by the loop and is well-formed. -/
theorem c3_groups_wellformed_witness :
    RItem.group [(scenA1, ⟨2024, 1, 2, 10, 0, 0⟩),
      (scenA2, ⟨2024, 1, 2, 9, 30, 0⟩)] ∈ fmtItems scenPairs ∧
    GoodGroup [(scenA1, ⟨2024, 1, 2, 10, 0, 0⟩),
      (scenA2, ⟨2024, 1, 2, 9, 30, 0⟩)] :=
  ⟨by decide, c3_groups_wellformed.1 scenPairs _ (by decide)⟩

/-- C9 counterexample: `format_changes` sorts the caller's list in place
(line 112), so on a two-record list supplied in ascending order the list the
caller handed over is no longer in its original order after the call. -/
theorem c9_counterexample_inplace_sort :
    format_changes_finalList [scenB, scenA1] ≠ [scenB, scenA1] ∧
    format_changes_finalList [scenB, scenA1] = [scenA1, scenB] := by
  constructor
  · decide
  · decide

/-- C9 amended: the formatter never alters any record's field values — the
caller's list still holds exactly the same records as a multiset — but it
does reorder the list in place into descending timestamp order. -/
theorem c9_formatter_sorts_but_preserves_records
    (changes : List EditRecord) :
    (format_changes_finalList changes).Perm changes ∧
    DescByTs (format_changes_finalList changes) :=
  ⟨sortDesc_perm changes, sortDesc_sorted changes⟩

/-- C8: formatting is deterministic, and invoking the formatter a second
time on the same list object — which the first call left sorted in place —
produces the identical output, so formatting twice is byte-identical. -/
theorem c8_format_deterministic_idempotent
    (changes : List EditRecord) (base_url : String)
    (start_date end_date : Int × Int × Int) (title : String) :
    format_changes changes base_url start_date end_date title =
      format_changes changes base_url start_date end_date title ∧
    format_changes (format_changes_finalList changes) base_url start_date
        end_date title =
      format_changes changes base_url start_date end_date title := by
  refine ⟨rfl, ?_⟩
  unfold format_changes format_changes_lines format_changes_finalList
  rw [sortDesc_idem]

/-- C2 counterexample: on Sunday 2024-01-07 (epoch day 19729) the computed
window end is epoch day 19721, yet 19728 — the immediately preceding
Saturday, whose Sunday-to-Saturday week is already fully completed — is a
more recent Saturday before the run date; so the end date is not the most
recent Saturday of a completed week. -/
theorem c2_counterexample_sunday_run :
    epochDayOfCivil 2024 1 7 = 19729 ∧ pyWeekday 19729 = 6 ∧
    pyWeekday 19728 = 5 ∧ (19728 : Int) < 19729 ∧
    lastSaturdayE 19729 = 19721 ∧
    ¬ (∀ s : Int, pyWeekday s = 5 → s < 19729 → s ≤ lastSaturdayE 19729) := by
  refine ⟨by decide, by decide, by decide, by decide, by decide, ?_⟩
  intro h
  have := h 19728 (by decide) (by decide)
  rw [show lastSaturdayE 19729 = 19721 from by decide] at this
  omega

/-- C2 amended: the computed window end is always a Saturday and the start
the Sunday six days before it, but the end is the most recent Saturday lying
at least two days before the run date — on Monday through Saturday runs that
is the Saturday of the most recently completed week, while on a Sunday run
it is the Saturday eight days back, not the one of the week that just
ended. -/
theorem c2_window_amended (today s : Int) (hs : pyWeekday s = 5)
    (hle : s ≤ today - 2) :
    pyWeekday (lastSaturdayE today) = 5 ∧
    pyWeekday (lastSundayE today) = 6 ∧
    lastSundayE today = lastSaturdayE today - 6 ∧
    lastSaturdayE today ≤ today - 2 ∧
    s ≤ lastSaturdayE today := by
  simp only [lastSundayE, lastSaturdayE, pyWeekday] at hs hle ⊢
  refine ⟨?_, ?_, ?_, ?_, ?_⟩ <;> first
  | trivial
  | omega

/-- Witness for the amended C2 on the Sunday run 2024-01-07. -/
theorem c2_window_amended_witness :
    pyWeekday 19721 = 5 ∧ (19721 : Int) ≤ 19729 - 2 ∧
    (pyWeekday (lastSaturdayE 19729) = 5 ∧
     pyWeekday (lastSundayE 19729) = 6 ∧
     lastSundayE 19729 = lastSaturdayE 19729 - 6 ∧
     lastSaturdayE 19729 ≤ 19729 - 2 ∧
     (19721 : Int) ≤ lastSaturdayE 19729) :=
  ⟨by decide, by decide, c2_window_amended 19729 19721 (by decide) (by decide)⟩

/-- C6 counterexample: with every variable set except the target domain, the
startup checks pass and the run proceeds straight to a network call whose URL
is built from the absent value (`https://None/w/api.php`); the run does not
fail fatally at startup. -/
theorem c6_counterexample_base_domain_unchecked :
    truthy envNoDomain.baseDomain = false ∧
    mainEvents envNoDomain [] true ≠ [Ev.exitCode 1] ∧
    (mainEvents envNoDomain [] true).head? =
      some (Ev.httpGet "https://None/w/api.php") :=
  ⟨by decide, by decide, by decide⟩

/-- C6 amended: a missing (or empty) wiki username, password, or recipient
address is fatal at startup, before any network call; missing Mailgun
configuration is fatal only in the send step — after the login-token, login
and fetch network calls, but before a Mailgun POST is attempted; a missing
target domain is never checked, and the run proceeds to call
`https://None/w/api.php`. -/
theorem c6_config_checks_amended (env : Env) (changes : List EditRecord)
    (sendOk : Bool) :
    (¬ (truthy env.mwUsername = true ∧ truthy env.mwPassword = true ∧
        truthy env.recipientEmail = true) →
      mainEvents env changes sendOk = [Ev.exitCode 1]) ∧
    (truthy env.mwUsername = true → truthy env.mwPassword = true →
      truthy env.recipientEmail = true → mailgunConfigured env = false →
      changes ≠ [] →
      mainEvents env changes sendOk =
        [Ev.httpGet (apiUrl env), Ev.httpPost (apiUrl env),
         Ev.httpGet (apiUrl env), Ev.formatReport, Ev.exitCode 1]) ∧
    (env.baseDomain = none → truthy env.mwUsername = true →
      truthy env.mwPassword = true → truthy env.recipientEmail = true →
      (mainEvents env changes sendOk).head? =
        some (Ev.httpGet "https://None/w/api.php")) := by
  refine ⟨?_, ?_, ?_⟩
  · intro h
    by_cases hu : truthy env.mwUsername
    · by_cases hp : truthy env.mwPassword
      · by_cases hr : truthy env.recipientEmail
        · exact absurd ⟨hu, hp, hr⟩ h
        · simp [mainEvents, hu, hp, hr]
      · simp [mainEvents, hu, hp]
    · simp [mainEvents, hu]
  · intro hu hp hr hmg hne
    cases changes with
    | nil => exact absurd rfl hne
    | cons c cs =>
      simp [mainEvents, hu, hp, hr, hmg, send_emailEvents]
  · intro hdom hu hp hr
    simp [mainEvents, hu, hp, hr, apiUrl, hdom, pyStr]

/-- Witness for the amended C6 at three concrete environments. -/
theorem c6_config_checks_amended_witness :
    mainEvents envNoPassword [] true = [Ev.exitCode 1] ∧
    mainEvents envNoMailgunKey [scenA1] true =
      [Ev.httpGet (apiUrl envNoMailgunKey),
       Ev.httpPost (apiUrl envNoMailgunKey),
       Ev.httpGet (apiUrl envNoMailgunKey), Ev.formatReport, Ev.exitCode 1] ∧
    (mainEvents envNoDomain [] true).head? =
      some (Ev.httpGet "https://None/w/api.php") :=
  ⟨(c6_config_checks_amended envNoPassword [] true).1 (by decide),
   (c6_config_checks_amended envNoMailgunKey [scenA1] true).2.1 (by decide)
     (by decide) (by decide) (by decide) (by decide),
   (c6_config_checks_amended envNoDomain [] true).2.2 rfl (by decide)
     (by decide) (by decide)⟩

/-- C7: when the fetched change set is empty and the startup checks pass,
the run issues exactly the token, login and fetch calls, then exits with
code 0; the formatter is never invoked and no POST other than to the wiki
API — in particular no Mailgun send — occurs. -/
theorem c7_empty_changes_success (env : Env) (sendOk : Bool)
    (hu : truthy env.mwUsername = true) (hp : truthy env.mwPassword = true)
    (hr : truthy env.recipientEmail = true) :
    mainEvents env [] sendOk =
      [Ev.httpGet (apiUrl env), Ev.httpPost (apiUrl env),
       Ev.httpGet (apiUrl env), Ev.exitCode 0] ∧
    Ev.formatReport ∉ mainEvents env [] sendOk ∧
    ∀ u, Ev.httpPost u ∈ mainEvents env [] sendOk → u = apiUrl env := by
  have h : mainEvents env [] sendOk =
      [Ev.httpGet (apiUrl env), Ev.httpPost (apiUrl env),
       Ev.httpGet (apiUrl env), Ev.exitCode 0] := by
    simp [mainEvents, hu, hp, hr]
  refine ⟨h, ?_, ?_⟩
  · rw [h]
    simp
  · intro u hu'
    rw [h] at hu'
    simpa using hu'

/-- Witness for C7 at a fully configured environment. -/
theorem c7_empty_changes_success_witness :
    truthy envFull.mwUsername = true ∧ truthy envFull.mwPassword = true ∧
    truthy envFull.recipientEmail = true ∧
    (mainEvents envFull [] true =
      [Ev.httpGet (apiUrl envFull), Ev.httpPost (apiUrl envFull),
       Ev.httpGet (apiUrl envFull), Ev.exitCode 0] ∧
     Ev.formatReport ∉ mainEvents envFull [] true ∧
     ∀ u, Ev.httpPost u ∈ mainEvents envFull [] true → u = apiUrl envFull) :=
  ⟨by decide, by decide, by decide,
   c7_empty_changes_success envFull true (by decide) (by decide) (by decide)⟩

theorem strAppend_assoc (a b c : String) : a ++ b ++ c = a ++ (b ++ c) := by
  cases a with
  | mk xs =>
    cases b with
    | mk ys =>
      cases c with
      | mk zs =>
        show String.mk (xs ++ ys ++ zs) = String.mk (xs ++ (ys ++ zs))
        rw [List.append_assoc]

theorem charsLtB_irrefl : ∀ l : List Char, charsLtB l l = false := by
  intro l
  induction l with
  | nil => rfl
  | cons a as ih => simp [charsLtB, ih]

theorem tsLtB_irrefl (s : String) : tsLtB s s = false :=
  charsLtB_irrefl s.data

/-- C5: the header line of every non-empty, descending-ordered group prints
the time range as the last member's time (the earliest) followed by the
first member's (the latest); on the specification's three-record scenario
the loop emits group 1 as the two Page1 edits, whose range renders as
`[09:30 - 10:00]`. -/
theorem c5_time_range_earliest_to_latest
    (first : RCPair) (rest : List RCPair) (base_url : String)
    (hsorted : List.Pairwise
      (fun a b : RCPair => tsLtB a.1.timestamp b.1.timestamp = false)
      (first :: rest)) :
    (∃ tail : String,
      (format_group (first :: rest) base_url).head? =
        some ("<p><strong>" ++ timeRange first (rest.getLastD first) ++ tail)) ∧
    timeRange first (rest.getLastD first) =
      "[" ++ hhmm (rest.getLastD first).2 ++ " - " ++ hhmm first.2 ++ "]" ∧
    tsLtB first.1.timestamp (rest.getLastD first).1.timestamp = false ∧
    timeRange (scenA1, ⟨2024, 1, 2, 10, 0, 0⟩) (scenA2, ⟨2024, 1, 2, 9, 30, 0⟩) =
      "[09:30 - 10:00]" ∧
    fmtItems scenPairs =
      [RItem.heading "2024-01-02" "Tuesday",
       RItem.group [(scenA1, ⟨2024, 1, 2, 10, 0, 0⟩),
         (scenA2, ⟨2024, 1, 2, 9, 30, 0⟩)],
       RItem.group [(scenB, ⟨2024, 1, 2, 9, 0, 0⟩)]] := by
  refine ⟨?_, ?_, ?_, by decide, by decide⟩
  · refine ⟨" <a href='" ++ base_url ++ "/wiki/" ++
      pyQuote (underscoreSpaces first.1.title) ++ "'><strong>" ++
      htmlEscape first.1.title ++ "</strong></a> [<a href='" ++ base_url ++
      "/wiki/User:" ++ pyQuote first.1.user ++ "'>" ++
      htmlEscape first.1.user ++ "</a>]</strong></p>", ?_⟩
    show some (groupHeader base_url first (rest.getLastD first)) = _
    rw [groupHeader]
    simp [strAppend_assoc]
  · rfl
  · have hmem : rest.getLastD first ∈ first :: rest := List.getLastD_mem_cons rest first
    rcases List.mem_cons.mp hmem with heq | hmem'
    · rw [heq]
      exact tsLtB_irrefl _
    · exact (List.pairwise_cons.mp hsorted).1 _ hmem'

/-- Witness for C5 at the two-record Page1 group of the scenario. -/
theorem c5_time_range_earliest_to_latest_witness :
    List.Pairwise
      (fun a b : RCPair => tsLtB a.1.timestamp b.1.timestamp = false)
      [(scenA1, (⟨2024, 1, 2, 10, 0, 0⟩ : DateTime)),
       (scenA2, ⟨2024, 1, 2, 9, 30, 0⟩)] ∧
    ((∃ tail : String,
      (format_group [(scenA1, ⟨2024, 1, 2, 10, 0, 0⟩),
          (scenA2, ⟨2024, 1, 2, 9, 30, 0⟩)] "https://w.example.org").head? =
        some ("<p><strong>" ++
          timeRange (scenA1, ⟨2024, 1, 2, 10, 0, 0⟩)
            ([((scenA2 : EditRecord), (⟨2024, 1, 2, 9, 30, 0⟩ : DateTime))].getLastD
              (scenA1, ⟨2024, 1, 2, 10, 0, 0⟩)) ++ tail))) :=
  ⟨by decide,
   (c5_time_range_earliest_to_latest (scenA1, ⟨2024, 1, 2, 10, 0, 0⟩)
     [(scenA2, ⟨2024, 1, 2, 9, 30, 0⟩)] "https://w.example.org" (by decide)).1⟩

/-- C10: with a non-trivially-formattable change set, the `<h1>` header that
`main`'s `format_changes` call produces prints the window range with the
chronologically later Saturday bound first (because `main` passes its
`end_date` as the formatter's `start_date` parameter), while the email
subject built in `main` prints the same range with the earlier Sunday bound
first: the two ranges of one report are reversed relative to each other. -/
theorem c10_header_and_subject_reversed
    (today : Int) (changes : List EditRecord) (domain : String)
    (pairs : List RCPair)
    (h : annotateAll (sortDesc changes) = some pairs) :
    (∃ rest : List String,
      mainFormatLines today changes domain =
        some (("<h1>Weekly " ++ titleOfDomain domain ++ " report: " ++
          fmtMD (civilFromDays (lastSaturdayE today)) ++ " - " ++
          fmtMD (civilFromDays (lastSundayE today)) ++ "</h1>") :: rest)) ∧
    mainSubject today domain =
      "Weekly " ++ domain ++ " report: " ++
        fmtMD (civilFromDays (lastSundayE today)) ++ " - " ++
        fmtMD (civilFromDays (lastSaturdayE today)) ∧
    lastSundayE today < lastSaturdayE today := by
  refine ⟨?_, rfl, ?_⟩
  · refine ⟨?_, ?_⟩
    · exact ("<p>Here are the recent changes on " ++ titleOfDomain domain ++
        " for the past week:</p>") ::
        (fmtItems pairs).flatMap (renderItem ("https://" ++ domain))
    · simp [mainFormatLines, format_changes_lines, h, headerLines]
  · simp only [lastSundayE]
    omega

/-- Witness for C10 at the scenario change set on the Sunday run
2024-01-07. -/
theorem c10_header_and_subject_reversed_witness :
    annotateAll (sortDesc scenChanges) = some scenPairs ∧
    ((∃ rest : List String,
      mainFormatLines 19729 scenChanges "wiki.example.org" =
        some (("<h1>Weekly " ++ titleOfDomain "wiki.example.org" ++
          " report: " ++ fmtMD (civilFromDays (lastSaturdayE 19729)) ++
          " - " ++ fmtMD (civilFromDays (lastSundayE 19729)) ++ "</h1>") ::
          rest)) ∧
    mainSubject 19729 "wiki.example.org" =
      "Weekly " ++ "wiki.example.org" ++ " report: " ++
        fmtMD (civilFromDays (lastSundayE 19729)) ++ " - " ++
        fmtMD (civilFromDays (lastSaturdayE 19729)) ∧
    lastSundayE 19729 < lastSaturdayE 19729) :=
  ⟨by decide,
   c10_header_and_subject_reversed 19729 scenChanges "wiki.example.org"
     scenPairs (by decide)⟩

theorem strMk_data (s : String) : String.mk s.data = s := rfl

theorem eraseT_append (a b : TStr) : eraseT (a ++ b) = eraseT a ++ eraseT b := by
  show String.mk ((a ++ b).map Prod.fst) =
    String.mk (a.map Prod.fst) ++ String.mk (b.map Prod.fst)
  show String.mk ((a ++ b).map Prod.fst) =
    String.mk (a.map Prod.fst ++ b.map Prod.fst)
  rw [List.map_append]

theorem eraseT_liftT (s : String) : eraseT (liftT s) = s := by
  show String.mk ((s.data.map fun c => (c, false)).map Prod.fst) = s
  rw [List.map_map]
  show String.mk (s.data.map fun c => c) = s
  rw [List.map_id']

theorem map_fst_tEscChar1 (c : Char) :
    (tEscChar1 (c, true)).map Prod.fst = escChar1 c := by
  unfold tEscChar1 escChar1
  split_ifs <;> simp [liftT, List.map_map]

theorem map_fst_flatMap_tEscChar1 :
    ∀ cs : List Char,
      (((cs.map fun c => (c, true)).flatMap tEscChar1).map Prod.fst) =
        escChars cs := by
  intro cs
  induction cs with
  | nil => rfl
  | cons c cs ih =>
    show ((tEscChar1 (c, true) ++
        (cs.map fun c => (c, true)).flatMap tEscChar1).map Prod.fst) =
      escChar1 c ++ escChars cs
    rw [List.map_append, map_fst_tEscChar1, ih]

theorem eraseT_tEsc_taintT (s : String) :
    eraseT (tEsc (taintT s)) = htmlEscape s := by
  show String.mk _ = String.mk (escChars s.data)
  rw [tEsc, taintT, map_fst_flatMap_tEscChar1]

theorem map_fst_tQuoteChar1 (c : Char) :
    (tQuoteChar1 (c, true)).map Prod.fst = quoteChar1 c := by
  unfold tQuoteChar1 quoteChar1
  split_ifs <;> simp [List.map_map, Function.comp_def]

theorem map_fst_flatMap_tQuoteChar1 :
    ∀ cs : List Char,
      (((cs.map fun c => (c, true)).flatMap tQuoteChar1).map Prod.fst) =
        quoteChars cs := by
  intro cs
  induction cs with
  | nil => rfl
  | cons c cs ih =>
    show ((tQuoteChar1 (c, true) ++
        (cs.map fun c => (c, true)).flatMap tQuoteChar1).map Prod.fst) =
      quoteChar1 c ++ quoteChars cs
    rw [List.map_append, map_fst_tQuoteChar1, ih]

theorem eraseT_tQuote_taintT (s : String) :
    eraseT (tQuote (taintT s)) = pyQuote s := by
  show String.mk _ = String.mk (quoteChars s.data)
  rw [tQuote, taintT, map_fst_flatMap_tQuoteChar1]

theorem eraseT_tEditEntry (base_url : String) (p : RCPair) :
    eraseT (tEditEntry base_url p) = editEntry base_url p := by
  unfold tEditEntry editEntry
  simp [eraseT_append, eraseT_liftT, eraseT_tEsc_taintT, strAppend_assoc]

theorem eraseT_tGroupHeader (base_url : String) (first last : RCPair) :
    eraseT (tGroupHeader base_url first last) =
      groupHeader base_url first last := by
  unfold tGroupHeader groupHeader
  simp [eraseT_append, eraseT_liftT, eraseT_tEsc_taintT,
    eraseT_tQuote_taintT, strAppend_assoc]

theorem map_eraseT_tFormat_group (g : List RCPair) (base_url : String) :
    (tFormat_group g base_url).map eraseT = format_group g base_url := by
  cases g with
  | nil => rfl
  | cons first rest =>
    unfold tFormat_group format_group
    simp [List.map_map, Function.comp, eraseT_tGroupHeader, eraseT_liftT,
      eraseT_tEditEntry]

theorem map_eraseT_tRenderItem (base_url : String) (it : RItem) :
    (tRenderItem base_url it).map eraseT = renderItem base_url it := by
  cases it with
  | heading d w => simp [tRenderItem, renderItem, eraseT_liftT]
  | group g => exact map_eraseT_tFormat_group g base_url

theorem map_eraseT_tLines (pairs : List RCPair) (base_url : String)
    (start_date end_date : Int × Int × Int) (title : String) :
    (tLines pairs base_url start_date end_date title).map eraseT =
      headerLines start_date end_date title ++
        (fmtItems pairs).flatMap (renderItem base_url) := by
  unfold tLines
  rw [List.map_append, List.map_map]
  congr 1
  · simp [Function.comp_def, eraseT_liftT]
  · induction fmtItems pairs with
    | nil => rfl
    | cons it its ih =>
      rw [List.flatMap_cons, List.flatMap_cons, List.map_append, ih,
        map_eraseT_tRenderItem]

theorem snd_false_of_mem_mapFalse {ct : TChar} {l : List Char}
    (h : ct ∈ l.map fun c => (c, false)) : ct.2 = false := by
  rcases List.mem_map.mp h with ⟨c, _, rfl⟩
  rfl

theorem noTaintedDanger_liftT (s : String) : noTaintedDanger (liftT s) := by
  intro ct hct htt
  rw [snd_false_of_mem_mapFalse hct] at htt
  cases htt

theorem noTaintedDanger_append {a b : TStr} (ha : noTaintedDanger a)
    (hb : noTaintedDanger b) : noTaintedDanger (a ++ b) := by
  intro ct hct htt
  rcases List.mem_append.mp hct with h | h
  · exact ha ct h htt
  · exact hb ct h htt

theorem noTaintedDanger_tEsc_taintT (s : String) :
    noTaintedDanger (tEsc (taintT s)) := by
  intro ct hct htt
  rcases List.mem_flatMap.mp hct with ⟨tc, htc, hmem⟩
  rcases List.mem_map.mp htc with ⟨c, _, rfl⟩
  unfold tEscChar1 at hmem
  split_ifs at hmem with h1 h2 h3 h4 h5
  · rw [snd_false_of_mem_mapFalse hmem] at htt
    cases htt
  · rw [snd_false_of_mem_mapFalse hmem] at htt
    cases htt
  · rw [snd_false_of_mem_mapFalse hmem] at htt
    cases htt
  · rw [snd_false_of_mem_mapFalse hmem] at htt
    cases htt
  · rw [snd_false_of_mem_mapFalse hmem] at htt
    cases htt
  · rw [List.mem_singleton] at hmem
    subst hmem
    exact ⟨h2, h3, h1, h4⟩

theorem quoteSafe_not_dangerous {c : Char} (h : quoteSafe c = true) :
    c ≠ '<' ∧ c ≠ '>' ∧ c ≠ '&' ∧ c ≠ '"' := by
  refine ⟨?_, ?_, ?_, ?_⟩ <;> rintro rfl <;> revert h <;> decide

theorem noTaintedDanger_tQuote_taintT (s : String) :
    noTaintedDanger (tQuote (taintT s)) := by
  intro ct hct htt
  rcases List.mem_flatMap.mp hct with ⟨tc, htc, hmem⟩
  rcases List.mem_map.mp htc with ⟨c, _, rfl⟩
  unfold tQuoteChar1 at hmem
  split_ifs at hmem with h1
  · rw [List.mem_singleton] at hmem
    subst hmem
    exact quoteSafe_not_dangerous h1
  · rw [snd_false_of_mem_mapFalse hmem] at htt
    cases htt

theorem noTaintedDanger_tEditEntry (base_url : String) (p : RCPair) :
    noTaintedDanger (tEditEntry base_url p) := by
  unfold tEditEntry
  exact noTaintedDanger_append
    (noTaintedDanger_append (noTaintedDanger_liftT _)
      (noTaintedDanger_tEsc_taintT _))
    (noTaintedDanger_liftT _)

theorem noTaintedDanger_tGroupHeader (base_url : String) (first last : RCPair) :
    noTaintedDanger (tGroupHeader base_url first last) := by
  unfold tGroupHeader
  refine noTaintedDanger_append (noTaintedDanger_append (noTaintedDanger_append
    (noTaintedDanger_append (noTaintedDanger_append (noTaintedDanger_append
      (noTaintedDanger_append (noTaintedDanger_append ?_ ?_) ?_) ?_) ?_) ?_)
        ?_) ?_) ?_
  · exact noTaintedDanger_liftT _
  · exact noTaintedDanger_tQuote_taintT _
  · exact noTaintedDanger_liftT _
  · exact noTaintedDanger_tEsc_taintT _
  · exact noTaintedDanger_liftT _
  · exact noTaintedDanger_tQuote_taintT _
  · exact noTaintedDanger_liftT _
  · exact noTaintedDanger_tEsc_taintT _
  · exact noTaintedDanger_liftT _

theorem noTaintedDanger_tFormat_group (g : List RCPair) (base_url : String) :
    ∀ l ∈ tFormat_group g base_url, noTaintedDanger l := by
  intro l hl
  cases g with
  | nil => simp [tFormat_group] at hl
  | cons f rest =>
    simp only [tFormat_group, List.mem_cons, List.mem_append, List.mem_map,
      List.mem_singleton] at hl
    rcases hl with rfl | rfl | ⟨p, _, rfl⟩ | rfl | h0
    · exact noTaintedDanger_tGroupHeader _ _ _
    · exact noTaintedDanger_liftT _
    · exact noTaintedDanger_tEditEntry _ _
    · exact noTaintedDanger_liftT _
    · exact absurd h0 (List.not_mem_nil l)

theorem noTaintedDanger_tRenderItem (base_url : String) (it : RItem) :
    ∀ l ∈ tRenderItem base_url it, noTaintedDanger l := by
  intro l hl
  cases it with
  | heading d w =>
    simp only [tRenderItem, List.mem_singleton] at hl
    subst hl
    exact noTaintedDanger_liftT _
  | group g => exact noTaintedDanger_tFormat_group g base_url l hl

theorem noTaintedDanger_tLines (pairs : List RCPair) (base_url : String)
    (start_date end_date : Int × Int × Int) (title : String) :
    ∀ l ∈ tLines pairs base_url start_date end_date title,
      noTaintedDanger l := by
  intro l hl
  unfold tLines at hl
  rcases List.mem_append.mp hl with h | h
  · rcases List.mem_map.mp h with ⟨s, _, rfl⟩
    exact noTaintedDanger_liftT _
  · rcases List.mem_flatMap.mp h with ⟨it, _, hmem⟩
    exact noTaintedDanger_tRenderItem base_url it l hmem

/-- C4: the formatter's output is exactly the provenance-erased image of a
taint-tracking render in which the raw characters of the user-supplied
fields (page titles, usernames, comments) are the tainted sources, HTML
entities and percent-escapes produced from them are emitted untainted, and
no surviving tainted character is a raw `<`, `>`, `&` or `"`: a dangerous
character of user-supplied text reaches the HTML only HTML-entity-escaped in
text positions or percent-encoded in URLs. -/
theorem c4_user_text_only_escaped
    (changes : List EditRecord) (base_url : String)
    (start_date end_date : Int × Int × Int) (title : String)
    (pairs : List RCPair)
    (h : annotateAll (sortDesc changes) = some pairs) :
    format_changes_lines changes base_url start_date end_date title =
      some ((tLines pairs base_url start_date end_date title).map eraseT) ∧
    ∀ l ∈ tLines pairs base_url start_date end_date title,
      noTaintedDanger l := by
  constructor
  · unfold format_changes_lines
    rw [h, map_eraseT_tLines]
    rfl
  · exact noTaintedDanger_tLines pairs base_url start_date end_date title

/-- Witness for C4 at a record whose title, user and comment all contain
the four dangerous characters. -/
theorem c4_user_text_only_escaped_witness :
    annotateAll (sortDesc riskyChanges) = some riskyPairs ∧
    (format_changes_lines riskyChanges "https://w.example.org" (2024, 1, 6)
        (2023, 12, 31) "w" =
      some ((tLines riskyPairs "https://w.example.org" (2024, 1, 6)
        (2023, 12, 31) "w").map eraseT) ∧
    ∀ l ∈ tLines riskyPairs "https://w.example.org" (2024, 1, 6)
        (2023, 12, 31) "w", noTaintedDanger l) :=
  ⟨by decide,
   c4_user_text_only_escaped riskyChanges "https://w.example.org" (2024, 1, 6)
     (2023, 12, 31) "w" riskyPairs (by decide)⟩
